import Mathlib

/-!
# Verification of the `vnpy_rest` request dispatch engine

A shallow embedding of `src/vnpy_rest/rest_client.py` (the `Request` value
object, the `RestClient` dispatcher `process_request`, the worker loop `run`,
and the lifecycle methods `start` / `stop` / `join` / `on_error`), together
with theorems settling the specification claims about it.

Python exceptions are modelled by the type `Exc`; a computation that may
raise returns `Res α` (either a value or a raised exception).  User-supplied
hooks (`sign`, the success `callback`, `on_failed`, `on_error`) and the HTTP
transport are oracles collected in an `Env`; the embedding records which
hooks were invoked as a trace of `Event`s, so that "invoked exactly once"
style properties can be stated by counting events.
-/

/-- A Python exception value (an instance of a subclass of `Exception`). -/
structure Exc where
  id : Nat
deriving DecidableEq, Repr

/-- Result of a Python computation: a value, or a raised exception. -/
inductive Res (α : Type) where
  | ok (a : α)
  | exn (e : Exc)
deriving DecidableEq, Repr

/-- An HTTP response as seen by `process_request`: its status code, and what
`response.json()` would yield if called (a parsed body, abstracted to a `Nat`
token, or a raised decoding exception). -/
structure Response where
  status_code : Nat
  jsonResult : Res Nat
deriving DecidableEq, Repr

/-- The `Request` object (src lines 37-61).  Dictionaries and opaque payloads
are abstracted to `Nat` tokens; the hook slots `callback` / `on_failed` /
`on_error` hold the identity of the supplied function, or `none` when the
caller supplied no hook (Python `None`).  `response` is the outcome slot set
by the worker (src line 278), `none` until then (src line 61). -/
structure Request where
  method : String
  path : String
  callback : Option Nat
  params : Option Nat
  data : Option Nat
  headers : Option Nat
  on_failed : Option Nat
  on_error : Option Nat
  extra : Option Nat
  response : Option Response
deriving DecidableEq, Repr

/-- The instance attributes assigned by `Request.__init__` (src lines 50-61),
in source order.  The constructor assigns exactly these ten attributes. -/
def Request.initFields : List String :=
  ["method", "path", "callback", "params", "data", "headers",
   "on_failed", "on_error", "extra", "response"]

/-- `add_request` (src lines 136-174) builds a fresh `Request` from the
caller's arguments; `Request.__init__` leaves `response` as `None`. -/
def add_request (method path : String)
    (callback : Option Nat) (params data headers : Option Nat)
    (on_failed on_error extra : Option Nat) : Request :=
  { method := method, path := path, callback := callback, params := params,
    data := data, headers := headers, on_failed := on_failed,
    on_error := on_error, extra := extra, response := none }

/-- One observable hook invocation made while processing a request. -/
inductive Event where
  | callback (body : Option Nat)
  | onFailed (code : Nat) (requestLevel : Bool)
  | onError (e : Exc) (requestLevel : Bool)
deriving DecidableEq, Repr

/-- Is the event an invocation of the success callback? -/
def Event.isCallback : Event → Bool
  | .callback _ => true
  | _ => false

/-- Is the event an invocation of `on_failed` (request-level or default)? -/
def Event.isOnFailed : Event → Bool
  | .onFailed _ _ => true
  | _ => false

/-- Is the event an invocation of `on_error` (request-level or default)? -/
def Event.isOnError : Event → Bool
  | .onError _ _ => true
  | _ => false

/-- Number of success-callback invocations in a trace. -/
def countCallback (evs : List Event) : Nat := evs.countP Event.isCallback

/-- Number of `on_failed` invocations in a trace. -/
def countOnFailed (evs : List Event) : Nat := evs.countP Event.isOnFailed

/-- Number of `on_error` invocations in a trace. -/
def countOnError (evs : List Event) : Nat := evs.countP Event.isOnError

/-- The oracles `process_request` interacts with: the overridable `sign`
hook, the HTTP transport (`session.request`), and the behaviour of each
user-supplied or default hook when invoked (each may itself raise). -/
structure Env where
  sign : Request → Res Request
  send : Request → Res Response
  runCallback : Nat → Option Nat → Request → Res Unit
  runOnFailed : Nat → Nat → Request → Res Unit
  clientOnFailed : Nat → Request → Res Unit
  runOnError : Nat → Exc → Request → Res Unit
  clientOnError : Exc → Option Request → Res Unit

/-- Result of running the `try:` body of `process_request` (src lines
263-295): the hook invocations it made, the current binding of the local
variable `request` when the body finished or raised (the `sign` call on
line 265 rebinds it, and line 278 sets its `response` attribute), and the
raised exception if the body did not complete. -/
structure TryOut where
  events : List Event
  cur : Request
  exc : Option Exc
deriving DecidableEq, Repr

/-- The `json_body` computation on the success path (src lines 284-287):
`json_body` starts as `None`; unless the status code is 204,
`response.json()` is called and may raise a decoding exception. -/
def jsonStep (response : Response) : Res (Option Nat) :=
  if response.status_code ≠ 204 then
    match response.jsonResult with
    | .exn e => Res.exn e
    | .ok j => Res.ok (some j)
  else Res.ok none

/-- The `try:` body of `process_request` (src lines 263-295): sign, send,
attach the response, then classify — on 2xx decode the body as JSON unless
the code is 204 and invoke `callback` if present; otherwise invoke
`on_failed` (request-level if present, else the client default).  Any raise
stops the body at that point. -/
def tryBody (env : Env) (req0 : Request) : TryOut :=
  match env.sign req0 with
  | .exn e => ⟨[], req0, some e⟩
  | .ok req1 =>
    match env.send req1 with
    | .exn e => ⟨[], req1, some e⟩
    | .ok response =>
      let req2 : Request := { req1 with response := some response }
      let status_code := response.status_code
      if status_code / 100 = 2 then
        match jsonStep response with
        | .exn e => ⟨[], req2, some e⟩
        | .ok json_body =>
          match req2.callback with
          | some cb =>
            match env.runCallback cb json_body req2 with
            | .exn e => ⟨[.callback json_body], req2, some e⟩
            | .ok _ => ⟨[.callback json_body], req2, none⟩
          | none => ⟨[], req2, none⟩
      else
        match req2.on_failed with
        | some f =>
          match env.runOnFailed f status_code req2 with
          | .exn e => ⟨[.onFailed status_code true], req2, some e⟩
          | .ok _ => ⟨[.onFailed status_code true], req2, none⟩
        | none =>
          match env.clientOnFailed status_code req2 with
          | .exn e => ⟨[.onFailed status_code false], req2, some e⟩
          | .ok _ => ⟨[.onFailed status_code false], req2, none⟩

/-- Outcome of one `process_request` call: the hook invocations, the final
state of the request object, and the exception escaping the call, if any
(only an exception raised by the invoked `on_error` handler can escape the
`except` clause). -/
structure ProcResult where
  events : List Event
  request : Request
  escaped : Option Exc
deriving DecidableEq, Repr

/-- The `except Exception` clause of `process_request` (src lines 296-305):
invoke the request's own `on_error` if supplied, else the client default,
on the caught exception and the current request binding; return what the
invoked handler itself did (it may raise). -/
def resolveOnError (env : Env) (e : Exc) (reqCur : Request) : Res Unit :=
  match reqCur.on_error with
  | some h => env.runOnError h e reqCur
  | none => env.clientOnError e (some reqCur)

/-- `process_request` (src lines 256-305): run the `try:` body; if it raised,
the `except Exception` clause invokes `on_error` — the request's own hook if
supplied, else the client default — on the caught exception and the current
request binding.  An exception raised by that handler itself escapes. -/
def process_request (env : Env) (req0 : Request) : ProcResult :=
  match tryBody env req0 with
  | ⟨evs, reqCur, none⟩ => ⟨evs, reqCur, none⟩
  | ⟨evs, reqCur, some e⟩ =>
    ⟨evs ++ [.onError e reqCur.on_error.isSome], reqCur,
      match resolveOnError env e reqCur with
      | .ok _ => none
      | .exn e2 => some e2⟩

/-- Result of one worker executing `run` (src lines 176-192) over the
requests it dequeues: the `process_request` outcomes in dequeue order, the
number of `queue.task_done()` calls made, and, when the worker's outer
`except` fired (invoking the client-wide `on_error` with request `None` and
terminating the worker), the exception that reached it. -/
structure WorkerResult where
  processed : List ProcResult
  acks : Nat
  fatal : Option Exc
deriving Repr

/-- The dequeue/dispatch loop inside `run` (src lines 180-188), abstracted
over the finite list of requests this worker dequeues while active.  Each
dequeued request is passed to `process_request` inside
`try: ... finally: self.queue.task_done()`, so `task_done` runs even when
`process_request` lets an exception escape; such an exception then reaches
the outer `except` of `run` (it is not `Empty`), which reports it via the
client-wide `on_error` with a null request, and the worker terminates. -/
def runLoop (env : Env) : List Request → WorkerResult
  | [] => ⟨[], 0, none⟩
  | req :: rest =>
    let r := process_request env req
    match r.escaped with
    | some e => ⟨[r], 1, some e⟩
    | none =>
      let w := runLoop env rest
      ⟨r :: w.processed, w.acks + 1, w.fatal⟩

/-- `run` (src lines 176-192): first `requests.session()` is created inside
the outer `try:` (a failure there also reaches the outer `except`, reported
with a null request); then the worker enters the dequeue/dispatch loop. -/
def runWorker (env : Env) (sessionSetup : Res Unit) (reqs : List Request) :
    WorkerResult :=
  match sessionSetup with
  | .exn e => ⟨[], 0, some e⟩
  | .ok _ => runLoop env reqs

/-- Observable effect of `start` (src lines 115-126): the resulting `active`
flag, the size of the thread pool created (`Pool(n)`), if any, and how many
times `self.run` was scheduled onto it (`apply_async` calls). -/
structure StartResult where
  active : Bool
  poolCreated : Option Nat
  runsScheduled : Nat
deriving DecidableEq, Repr

/-- `start` (src lines 115-126): if already active, return immediately;
otherwise set `active`, create `Pool(n)` and call
`self.pool.apply_async(self.run)` once. -/
def RestClient.start (active : Bool) (n : Nat) : StartResult :=
  if active then ⟨active, none, 0⟩
  else ⟨true, some n, 1⟩

/-- `stop` (src lines 128-130): set `self.active = False`. -/
def RestClient.stop (_active : Bool) : Bool := false

/-- The two kinds of join discussed by the spec: waiting for the worker pool
threads to exit, versus waiting on the request queue for all enqueued items
to be acked. -/
inductive JoinKind where
  | poolJoin
  | queueJoin
deriving DecidableEq, Repr

/-- Which join `RestClient.join` (src lines 132-134) performs: its body is
`self.queue.join()`, the queue-level join. -/
def RestClient.joinKind : JoinKind := JoinKind.queueJoin

/-- The join operations exposed on `RestClient`'s public interface: the
class defines a single `join` method (src lines 132-134), whose body is the
queue-level `self.queue.join()`; no method of the class calls
`self.pool.join()`. -/
def RestClient.exposedJoins : List JoinKind := [JoinKind.queueJoin]

/-- The unfinished-task counter of Python's `queue.Queue`: each `put`
increments it, each `task_done` decrements it, and `Queue.join()` unblocks
exactly when it is zero. -/
def unfinishedTasks (puts acks : Nat) : Nat := puts - acks

/-- The body of the default `on_error` `try:` block (src lines 228-230):
print the header line, then build and print the diagnostic block; either
step may raise, and a raise in the first skips the second. -/
def onErrorBody (printHeader printDetail : Res Unit) : Res Unit :=
  match printHeader with
  | .exn e => .exn e
  | .ok _ => printDetail

/-- The default `on_error` handler (src lines 213-232): its whole body is
wrapped in `try: ... except Exception: traceback.print_exc()`, so any
exception raised while building or printing the diagnostic block is caught
inside the handler and replaced by a best-effort traceback print. -/
def onErrorGuarded (printHeader printDetail : Res Unit) : Res Unit :=
  match onErrorBody printHeader printDetail with
  | .ok u => .ok u
  | .exn _ => .ok ()

/-- `exception_detail` (src lines 234-254), with the ambient values (the
timestamp, the rendered exception class, the request's string rendering and
the formatted stack trace) passed in as strings. -/
def exception_detail (now excName requestStr traceStr : String) : String :=
  "[" ++ now ++ "]: Unhandled RestClient Error:" ++ excName ++ "\n" ++
    "request:" ++ requestStr ++ "\n" ++ "Exception trace: \n" ++ traceStr

/-- The three terminal outcomes named by the spec's state machine. -/
inductive Outcome where
  | success
  | failed
  | error
deriving DecidableEq, Repr

/-- The terminal outcome of one `process_request` call, derived from its
hook-invocation trace (this code stores no status field on the request; the
outcome is observable only through which path the dispatcher completed):
`error` when the `except` clause ran (an `on_error` invocation is in the
trace), otherwise `failed` when the non-2xx branch ran (`on_failed` is in
the trace), otherwise `success`. -/
def ProcResult.outcome (r : ProcResult) : Outcome :=
  if countOnError r.events ≠ 0 then .error
  else if countOnFailed r.events ≠ 0 then .failed
  else .success

/-- A concrete environment for evaluating the embedding: identity `sign`,
a transport that always yields `sendResult`, and hooks that return without
raising. -/
def okEnv (sendResult : Res Response) : Env :=
  { sign := fun r => Res.ok r,
    send := fun _ => sendResult,
    runCallback := fun _ _ _ => Res.ok (),
    runOnFailed := fun _ _ _ => Res.ok (),
    clientOnFailed := fun _ _ => Res.ok (),
    runOnError := fun _ _ _ => Res.ok (),
    clientOnError := fun _ _ => Res.ok () }

/-- A concrete request with no hooks attached, as built by `add_request`. -/
def plainReq : Request :=
  add_request "GET" "/ping" none none none none none none none

/-- A concrete request carrying a success callback (id 1). -/
def cbReq : Request :=
  add_request "GET" "/ping" (some 1) none none none none none none

/-- A concrete request carrying its own `on_error` hook (id 2). -/
def onErrReq : Request :=
  add_request "GET" "/ping" none none none none none (some 2) none

/-- A 200 response whose body decodes to the token 1. -/
def resp200 : Response := ⟨200, Res.ok 1⟩

/-- A 404 response. -/
def resp404 : Response := ⟨404, Res.ok 1⟩

/-- A 204 response; calling `response.json()` on it would raise. -/
def resp204 : Response := ⟨204, Res.exn ⟨11⟩⟩

/-- A 200 response whose body fails to decode as JSON. -/
def resp200badJson : Response := ⟨200, Res.exn ⟨7⟩⟩

/-- An environment whose `sign` hook always raises exception 3. -/
def envSignFail : Env :=
  { okEnv (Res.ok resp200) with sign := fun _ => Res.exn ⟨3⟩ }

/-- An environment where sending raises exception 5 and the request-level
`on_error` hook itself raises exception 9 when invoked. -/
def envOnErrorRaises : Env :=
  { okEnv (Res.ok resp200) with
      send := fun _ => Res.exn ⟨5⟩,
      runOnError := fun _ _ _ => Res.exn ⟨9⟩ }

/-! ## Basic lemmas about the trace of one processed request -/

lemma tryBody_events_shape (env : Env) (req : Request) :
    (tryBody env req).events = [] ∨
      (∃ b, (tryBody env req).events = [Event.callback b]) ∨
      ∃ c l, (tryBody env req).events = [Event.onFailed c l] := by
  unfold tryBody
  cases hs : env.sign req with
  | exn e => simp [hs]
  | ok req1 =>
    cases hd : env.send req1 with
    | exn e => simp [hd]
    | ok resp =>
      by_cases h2 : resp.status_code / 100 = 2
      · cases hj : jsonStep resp with
        | exn e => simp [hd, h2, hj]
        | ok jb =>
          cases hc : req1.callback with
          | none => simp [hd, h2, hj, hc]
          | some cb =>
            cases hr : env.runCallback cb jb
                { req1 with callback := some cb, response := some resp } with
            | ok a => simp [hd, h2, hj, hc, hr]
            | exn e => simp [hd, h2, hj, hc, hr]
      · cases hf : req1.on_failed with
        | some f =>
          cases hr : env.runOnFailed f resp.status_code
              { req1 with on_failed := some f, response := some resp } with
          | ok a => simp [hd, h2, hf, hr]
          | exn e => simp [hd, h2, hf, hr]
        | none =>
          cases hr : env.clientOnFailed resp.status_code
              { req1 with on_failed := none, response := some resp } with
          | ok a => simp [hd, h2, hf, hr]
          | exn e => simp [hd, h2, hf, hr]

lemma countOnError_tryBody (env : Env) (req : Request) :
    countOnError (tryBody env req).events = 0 := by
  rcases tryBody_events_shape env req with h | ⟨b, h⟩ | ⟨c, l, h⟩ <;>
    simp [h, countOnError, Event.isOnError, List.countP_cons]

lemma countOnFailed_tryBody_le_one (env : Env) (req : Request) :
    countOnFailed (tryBody env req).events ≤ 1 := by
  rcases tryBody_events_shape env req with h | ⟨b, h⟩ | ⟨c, l, h⟩ <;>
    simp [h, countOnFailed, Event.isOnFailed, List.countP_cons]

lemma process_request_of_exc_none (env : Env) (req : Request)
    (h : (tryBody env req).exc = none) :
    process_request env req =
      ⟨(tryBody env req).events, (tryBody env req).cur, none⟩ := by
  unfold process_request
  rcases htb : tryBody env req with ⟨evs, cur, exc⟩
  rw [htb] at h
  cases exc with
  | none => simp
  | some e => simp at h

lemma process_request_of_exc_some (env : Env) (req : Request) (e : Exc)
    (h : (tryBody env req).exc = some e) :
    process_request env req =
      ⟨(tryBody env req).events ++
          [Event.onError e (tryBody env req).cur.on_error.isSome],
        (tryBody env req).cur,
        match resolveOnError env e (tryBody env req).cur with
        | .ok _ => none
        | .exn e2 => some e2⟩ := by
  unfold process_request
  rcases htb : tryBody env req with ⟨evs, cur, exc⟩
  rw [htb] at h
  cases exc with
  | none => simp at h
  | some e0 =>
    simp only [Option.some.injEq] at h
    subst h
    simp [htb]

lemma jsonStep_of_204 (resp : Response) (h : resp.status_code = 204) :
    jsonStep resp = Res.ok none := by
  simp [jsonStep, h]

lemma jsonStep_of_ok (resp : Response) (j : Nat) (hn : resp.status_code ≠ 204)
    (hj : resp.jsonResult = Res.ok j) : jsonStep resp = Res.ok (some j) := by
  simp [jsonStep, hn, hj]

lemma tryBody_of_sign_exn (env : Env) (req0 : Request) (e : Exc)
    (hs : env.sign req0 = Res.exn e) : tryBody env req0 = ⟨[], req0, some e⟩ := by
  unfold tryBody
  simp [hs]

lemma tryBody_of_send_exn (env : Env) (req0 req1 : Request) (e : Exc)
    (hs : env.sign req0 = Res.ok req1) (hd : env.send req1 = Res.exn e) :
    tryBody env req0 = ⟨[], req1, some e⟩ := by
  unfold tryBody
  simp [hs, hd]

lemma tryBody_cur_of_send_ok (env : Env) (req0 req1 : Request) (resp : Response)
    (hs : env.sign req0 = Res.ok req1) (hd : env.send req1 = Res.ok resp) :
    (tryBody env req0).cur = { req1 with response := some resp } := by
  unfold tryBody
  by_cases h2 : resp.status_code / 100 = 2
  · cases hj : jsonStep resp with
    | exn e => simp [hs, hd, h2, hj]
    | ok jb =>
      cases hc : req1.callback with
      | none => simp [hs, hd, h2, hj, hc]
      | some cb =>
        cases hr : env.runCallback cb jb
            { req1 with callback := some cb, response := some resp } with
        | ok a => simp [hs, hd, h2, hj, hc, hr]
        | exn e => simp [hs, hd, h2, hj, hc, hr]
  · cases hf : req1.on_failed with
    | some f =>
      cases hr : env.runOnFailed f resp.status_code
          { req1 with on_failed := some f, response := some resp } with
      | ok a => simp [hs, hd, h2, hf, hr]
      | exn e => simp [hs, hd, h2, hf, hr]
    | none =>
      cases hr : env.clientOnFailed resp.status_code
          { req1 with on_failed := none, response := some resp } with
      | ok a => simp [hs, hd, h2, hf, hr]
      | exn e => simp [hs, hd, h2, hf, hr]

lemma tryBody_events_of_2xx (env : Env) (req0 req1 : Request) (resp : Response)
    (hs : env.sign req0 = Res.ok req1) (hd : env.send req1 = Res.ok resp)
    (h2 : resp.status_code / 100 = 2) :
    countOnFailed (tryBody env req0).events = 0 := by
  unfold tryBody
  cases hj : jsonStep resp with
  | exn e => simp [hs, hd, h2, hj, countOnFailed]
  | ok jb =>
    cases hc : req1.callback with
    | none => simp [hs, hd, h2, hj, hc, countOnFailed]
    | some cb =>
      cases hr : env.runCallback cb jb
          { req1 with callback := some cb, response := some resp } with
      | ok a => simp [hs, hd, h2, hj, hc, hr, countOnFailed, Event.isOnFailed]
      | exn e => simp [hs, hd, h2, hj, hc, hr, countOnFailed, Event.isOnFailed]

lemma tryBody_events_of_2xx_callback (env : Env) (req0 req1 : Request)
    (resp : Response) (jb : Option Nat) (cb : Nat)
    (hs : env.sign req0 = Res.ok req1) (hd : env.send req1 = Res.ok resp)
    (h2 : resp.status_code / 100 = 2) (hj : jsonStep resp = Res.ok jb)
    (hc : req1.callback = some cb) :
    (tryBody env req0).events = [Event.callback jb] := by
  unfold tryBody
  cases hr : env.runCallback cb jb
      { req1 with callback := some cb, response := some resp } with
  | ok a => simp [hs, hd, h2, hj, hc, hr]
  | exn e => simp [hs, hd, h2, hj, hc, hr]

lemma tryBody_of_2xx_no_callback (env : Env) (req0 req1 : Request)
    (resp : Response) (jb : Option Nat)
    (hs : env.sign req0 = Res.ok req1) (hd : env.send req1 = Res.ok resp)
    (h2 : resp.status_code / 100 = 2) (hj : jsonStep resp = Res.ok jb)
    (hc : req1.callback = none) :
    tryBody env req0 = ⟨[], { req1 with response := some resp }, none⟩ := by
  unfold tryBody
  simp [hs, hd, h2, hj, hc]

lemma tryBody_events_of_non2xx (env : Env) (req0 req1 : Request)
    (resp : Response)
    (hs : env.sign req0 = Res.ok req1) (hd : env.send req1 = Res.ok resp)
    (h2 : ¬ resp.status_code / 100 = 2) :
    (tryBody env req0).events =
      [Event.onFailed resp.status_code req1.on_failed.isSome] := by
  unfold tryBody
  cases hf : req1.on_failed with
  | some f =>
    cases hr : env.runOnFailed f resp.status_code
        { req1 with on_failed := some f, response := some resp } with
    | ok a => simp [hs, hd, h2, hf, hr]
    | exn e => simp [hs, hd, h2, hf, hr]
  | none =>
    cases hr : env.clientOnFailed resp.status_code
        { req1 with on_failed := none, response := some resp } with
    | ok a => simp [hs, hd, h2, hf, hr]
    | exn e => simp [hs, hd, h2, hf, hr]

lemma countCallback_process (env : Env) (req : Request) :
    countCallback (process_request env req).events =
      countCallback (tryBody env req).events := by
  cases hexc : (tryBody env req).exc with
  | none => rw [process_request_of_exc_none env req hexc]
  | some e =>
    rw [process_request_of_exc_some env req e hexc]
    simp [countCallback, List.countP_append, Event.isCallback]

lemma countOnFailed_process (env : Env) (req : Request) :
    countOnFailed (process_request env req).events =
      countOnFailed (tryBody env req).events := by
  cases hexc : (tryBody env req).exc with
  | none => rw [process_request_of_exc_none env req hexc]
  | some e =>
    rw [process_request_of_exc_some env req e hexc]
    simp [countOnFailed, List.countP_append, Event.isOnFailed]

lemma countOnError_process (env : Env) (req : Request) :
    countOnError (process_request env req).events =
      (if (tryBody env req).exc = none then 0 else 1) := by
  cases hexc : (tryBody env req).exc with
  | none =>
    rw [process_request_of_exc_none env req hexc]
    simp [countOnError_tryBody]
  | some e =>
    rw [process_request_of_exc_some env req e hexc]
    simp [countOnError, List.countP_append, Event.isOnError]
    have h0 := countOnError_tryBody env req
    simpa [countOnError] using h0

lemma mem_events_process (env : Env) (req : Request) (a : Event)
    (h : a ∈ (tryBody env req).events) :
    a ∈ (process_request env req).events := by
  cases hexc : (tryBody env req).exc with
  | none =>
    rw [process_request_of_exc_none env req hexc]
    exact h
  | some e =>
    rw [process_request_of_exc_some env req e hexc]
    exact List.mem_append_left _ h

lemma process_request_escaped_none (env : Env) (req : Request)
    (h : (tryBody env req).exc = none) :
    (process_request env req).escaped = none := by
  rw [process_request_of_exc_none env req h]

lemma process_request_escaped_some (env : Env) (req : Request) (e2 : Exc)
    (h : (process_request env req).escaped = some e2) :
    ∃ e, (tryBody env req).exc = some e ∧
      resolveOnError env e (tryBody env req).cur = Res.exn e2 := by
  cases hexc : (tryBody env req).exc with
  | none =>
    rw [process_request_of_exc_none env req hexc] at h
    simp at h
  | some e =>
    refine ⟨e, rfl, ?_⟩
    rw [process_request_of_exc_some env req e hexc] at h
    cases hre : resolveOnError env e (tryBody env req).cur with
    | ok a => rw [hre] at h; simp at h
    | exn e3 => rw [hre] at h; simp at h; rw [h]

lemma process_request_request_eq_cur (env : Env) (req : Request) :
    (process_request env req).request = (tryBody env req).cur := by
  cases hexc : (tryBody env req).exc with
  | none => rw [process_request_of_exc_none env req hexc]
  | some e => rw [process_request_of_exc_some env req e hexc]

/-! ## Lemmas about the worker loop -/

lemma runLoop_acks_eq_length (env : Env) (reqs : List Request) :
    (runLoop env reqs).acks = (runLoop env reqs).processed.length := by
  induction reqs with
  | nil => rfl
  | cons req rest ih =>
    unfold runLoop
    cases hesc : (process_request env req).escaped with
    | some e => simp [hesc]
    | none => simp [hesc, ih]

lemma runLoop_fatal_iff (env : Env) (reqs : List Request) :
    (runLoop env reqs).fatal ≠ none ↔
      ∃ r ∈ (runLoop env reqs).processed, r.escaped ≠ none := by
  induction reqs with
  | nil => simp [runLoop]
  | cons req rest ih =>
    unfold runLoop
    cases hesc : (process_request env req).escaped with
    | some e => simp [hesc]
    | none =>
      simp only [hesc]
      constructor
      · intro h
        rcases ih.mp h with ⟨r, hr, hre⟩
        exact ⟨r, List.mem_cons_of_mem _ hr, hre⟩
      · intro h
        rcases h with ⟨r, hr, hre⟩
        rcases List.mem_cons.mp hr with rfl | hr2
        · exact absurd hesc hre
        · exact ih.mpr ⟨r, hr2, hre⟩

lemma runLoop_fatal_none_length (env : Env) (reqs : List Request)
    (h : (runLoop env reqs).fatal = none) :
    (runLoop env reqs).processed.length = reqs.length := by
  induction reqs with
  | nil => rfl
  | cons req rest ih =>
    unfold runLoop at h ⊢
    cases hesc : (process_request env req).escaped with
    | some e => simp [hesc] at h
    | none =>
      simp [hesc] at h ⊢
      exact ih h

/-! ## Claim theorems -/

/-- C1 (counterexample): the claim says every `Request` carries a `status`
field; `Request.__init__` in this code assigns no such attribute — the
outcome slots are `response` and the hook trace only. -/
theorem status_field_absent : "status" ∉ Request.initFields := by decide

/-- C1 (amended): `Request` carries no status field; instead each processed
request reaches exactly one derived terminal outcome: `error` exactly when
the dispatch body raised (and the exception was caught), `failed` exactly
when processing completed through the non-2xx branch (one `on_failed`
invocation), and `success` exactly when it completed through the 2xx branch.
-/
theorem request_outcome_trichotomy (env : Env) (req0 : Request) :
    "status" ∉ Request.initFields ∧
    ((process_request env req0).outcome = Outcome.error ↔
        (tryBody env req0).exc ≠ none) ∧
    ((process_request env req0).outcome = Outcome.failed ↔
        ((tryBody env req0).exc = none ∧
          countOnFailed (tryBody env req0).events = 1)) ∧
    ((process_request env req0).outcome = Outcome.success ↔
        ((tryBody env req0).exc = none ∧
          countOnFailed (tryBody env req0).events = 0)) := by
  have hoe := countOnError_process env req0
  have hof := countOnFailed_process env req0
  have hle := countOnFailed_tryBody_le_one env req0
  refine ⟨by decide, ?_⟩
  cases hexc : (tryBody env req0).exc with
  | some e =>
    rw [hexc] at hoe
    simp at hoe
    unfold ProcResult.outcome
    simp [hoe]
  | none =>
    rw [hexc] at hoe
    simp at hoe
    unfold ProcResult.outcome
    by_cases hcf : countOnFailed (tryBody env req0).events = 0
    · simp [hoe, hof, hcf]
    · have h1 : countOnFailed (tryBody env req0).events = 1 := by omega
      simp [hoe, hof, h1]

/-- C2 (code_bug evaluation): starting an inactive client with `n = 5`
creates a pool of five threads but schedules the `run` dequeue/dispatch
loop exactly once (`apply_async(self.run)` is called a single time), so
only one worker consumes the queue; starting when already active is a
no-op. -/
theorem start_schedules_single_run :
    RestClient.start false 5 = ⟨true, some 5, 1⟩ ∧
      RestClient.start true 5 = ⟨true, none, 0⟩ := by
  exact ⟨rfl, rfl⟩

/-- C3 (counterexample): the claim says a pool-level join is available on
the public interface; the class exposes a single `join` method and it
performs the queue-level join — no method performs a pool-level join. -/
theorem pool_level_join_not_exposed :
    JoinKind.poolJoin ∉ RestClient.exposedJoins := by decide

/-- C3 (amended): the client exposes a single join operation, whose body is
the queue-level `queue.join()` — it waits until every enqueued item has
been acked (the unfinished-task counter reaches zero); no pool-level join
appears on the public interface. -/
theorem single_queue_level_join (puts acks : Nat) (h : acks ≤ puts) :
    RestClient.joinKind = JoinKind.queueJoin ∧
      RestClient.exposedJoins = [JoinKind.queueJoin] ∧
      (unfinishedTasks puts acks = 0 ↔ puts = acks) := by
  refine ⟨rfl, rfl, ?_⟩
  unfold unfinishedTasks
  omega

/-- Witness for `single_queue_level_join` at `puts = 3`, `acks = 2`. -/
theorem single_queue_level_join_witness :
    2 ≤ 3 ∧ (unfinishedTasks 3 2 = 0 ↔ 3 = 2) :=
  ⟨by decide, (single_queue_level_join 3 2 (by decide)).2.2⟩

/-- C9: the default `on_error` handler never raises — whatever building or
printing the diagnostic block does (including raising at either step), the
handler returns normally. -/
theorem default_on_error_never_raises (printHeader printDetail : Res Unit) :
    onErrorGuarded printHeader printDetail = Res.ok () := by
  unfold onErrorGuarded onErrorBody
  cases printHeader with
  | exn e => rfl
  | ok a =>
    cases printDetail with
    | exn e => rfl
    | ok u => cases u; rfl

/-- C4: whenever the `try:` body of `process_request` raises (during
signing, sending, body decoding, or inside the invoked success / failure
callback), the exception is caught at the outermost scope and `on_error` is
invoked exactly once — the request's own hook if supplied on the current
request binding, else the client default. -/
theorem on_error_exactly_once_on_exception (env : Env) (req0 : Request)
    (e : Exc) (h : (tryBody env req0).exc = some e) :
    (process_request env req0).events =
      (tryBody env req0).events ++
        [Event.onError e (tryBody env req0).cur.on_error.isSome] ∧
      countOnError (process_request env req0).events = 1 := by
  constructor
  · rw [process_request_of_exc_some env req0 e h]
  · rw [countOnError_process env req0, h]
    simp

/-- Witness for `on_error_exactly_once_on_exception`: a signing hook that
raises exception 3. -/
theorem on_error_exactly_once_on_exception_witness :
    (tryBody envSignFail plainReq).exc = some ⟨3⟩ ∧
      countOnError (process_request envSignFail plainReq).events = 1 :=
  ⟨rfl, (on_error_exactly_once_on_exception envSignFail plainReq ⟨3⟩ rfl).2⟩

/-- C5: for a completed exchange, a 2xx status never invokes `on_failed`;
a 204 skips the body decode (even an erroring decoder is never consulted)
and a present callback receives an absent body; any other 2xx with a
decodable body hands the decoded body to the callback; a non-2xx status
invokes `on_failed` exactly once (request-level iff the request supplied
one) and never the success callback. -/
theorem classification_and_decode (env : Env) (req0 req1 : Request)
    (resp : Response)
    (hs : env.sign req0 = Res.ok req1) (hd : env.send req1 = Res.ok resp) :
    (resp.status_code / 100 = 2 →
        countOnFailed (process_request env req0).events = 0) ∧
    (resp.status_code = 204 → ∀ cb, req1.callback = some cb →
        (tryBody env req0).events = [Event.callback none] ∧
          countCallback (process_request env req0).events = 1 ∧
          Event.callback none ∈ (process_request env req0).events) ∧
    (resp.status_code / 100 = 2 → resp.status_code ≠ 204 →
        ∀ j, resp.jsonResult = Res.ok j → ∀ cb, req1.callback = some cb →
        countCallback (process_request env req0).events = 1 ∧
          Event.callback (some j) ∈ (process_request env req0).events) ∧
    (¬ resp.status_code / 100 = 2 →
        countCallback (process_request env req0).events = 0 ∧
          countOnFailed (process_request env req0).events = 1 ∧
          Event.onFailed resp.status_code req1.on_failed.isSome ∈
            (process_request env req0).events) := by
  refine ⟨?_, ?_, ?_, ?_⟩
  · intro h2
    rw [countOnFailed_process]
    exact tryBody_events_of_2xx env req0 req1 resp hs hd h2
  · intro h204 cb hc
    have h2 : resp.status_code / 100 = 2 := by rw [h204]
    have hj := jsonStep_of_204 resp h204
    have hev := tryBody_events_of_2xx_callback env req0 req1 resp none cb
      hs hd h2 hj hc
    refine ⟨hev, ?_, ?_⟩
    · rw [countCallback_process, hev]
      simp [countCallback, Event.isCallback]
    · exact mem_events_process env req0 _ (by rw [hev]; simp)
  · intro h2 hn j hj cb hc
    have hjs := jsonStep_of_ok resp j hn hj
    have hev := tryBody_events_of_2xx_callback env req0 req1 resp (some j) cb
      hs hd h2 hjs hc
    refine ⟨?_, ?_⟩
    · rw [countCallback_process, hev]
      simp [countCallback, Event.isCallback]
    · exact mem_events_process env req0 _ (by rw [hev]; simp)
  · intro h2
    have hev := tryBody_events_of_non2xx env req0 req1 resp hs hd h2
    refine ⟨?_, ?_, ?_⟩
    · rw [countCallback_process, hev]
      simp [countCallback, Event.isCallback]
    · rw [countOnFailed_process, hev]
      simp [countOnFailed, Event.isOnFailed]
    · exact mem_events_process env req0 _ (by rw [hev]; simp)

/-- Witness for `classification_and_decode`: a 200 exchange with a
decodable body and a request-level success callback. -/
theorem classification_and_decode_witness :
    (okEnv (Res.ok resp200)).sign cbReq = Res.ok cbReq ∧
      (okEnv (Res.ok resp200)).send cbReq = Res.ok resp200 ∧
      countOnFailed (process_request (okEnv (Res.ok resp200)) cbReq).events
          = 0 ∧
      countCallback (process_request (okEnv (Res.ok resp200)) cbReq).events
          = 1 := by
  refine ⟨rfl, rfl, ?_, ?_⟩
  · exact (classification_and_decode (okEnv (Res.ok resp200)) cbReq cbReq
      resp200 rfl rfl).1 (by decide)
  · exact ((classification_and_decode (okEnv (Res.ok resp200)) cbReq cbReq
      resp200 rfl rfl).2.2.1 (by decide) (by decide) 1 rfl 1 rfl).1

/-- C8: starting from a request whose `response` is null (as `add_request`
builds it) and a `sign` hook that does not touch the `response` slot, after
`process_request` the request's `response` is non-null iff a network
exchange actually completed — including exchanges classified as failures —
and it stays null when signing or sending itself raised. -/
theorem response_iff_exchange_completed (env : Env) (req0 : Request)
    (h0 : req0.response = none)
    (hpres : ∀ req1, env.sign req0 = Res.ok req1 → req1.response = none) :
    (process_request env req0).request.response.isSome ↔
      ∃ req1 resp, env.sign req0 = Res.ok req1 ∧
        env.send req1 = Res.ok resp := by
  rw [process_request_request_eq_cur]
  cases hs : env.sign req0 with
  | exn e =>
    rw [tryBody_of_sign_exn env req0 e hs]
    constructor
    · intro hIsSome
      rw [h0] at hIsSome
      simp at hIsSome
    · rintro ⟨req1, resp, h1, h2⟩
      simp at h1
  | ok req1 =>
    cases hd : env.send req1 with
    | exn e =>
      rw [tryBody_of_send_exn env req0 req1 e hs hd]
      constructor
      · intro hIsSome
        rw [hpres req1 hs] at hIsSome
        simp at hIsSome
      · rintro ⟨req1b, resp, h1, h2⟩
        injection h1 with h3
        subst h3
        rw [hd] at h2
        simp at h2
    | ok resp =>
      rw [tryBody_cur_of_send_ok env req0 req1 resp hs hd]
      constructor
      · intro _
        exact ⟨req1, resp, rfl, hd⟩
      · intro _
        simp

/-- Witness for `response_iff_exchange_completed`: a completed 404 exchange
(classified as failure) leaves the response attached. -/
theorem response_iff_exchange_completed_witness :
    plainReq.response = none ∧
      ((process_request (okEnv (Res.ok resp404)) plainReq).request.response.isSome ↔
        ∃ req1 resp, (okEnv (Res.ok resp404)).sign plainReq = Res.ok req1 ∧
          (okEnv (Res.ok resp404)).send req1 = Res.ok resp) :=
  ⟨rfl, response_iff_exchange_completed (okEnv (Res.ok resp404)) plainReq rfl
    (fun req1 h => by injection h with h2; rw [← h2]; rfl)⟩

/-- C10 (counterexample): a 200 exchange whose body fails to decode, on a
request with no success callback, still invokes a callback — the client
default `on_error` — so "no callback of any kind is invoked" fails as
stated. -/
theorem decode_error_invokes_on_error_without_callback :
    plainReq.callback = none ∧
      resp200badJson.status_code / 100 = 2 ∧
      (process_request (okEnv (Res.ok resp200badJson)) plainReq).events =
        [Event.onError ⟨7⟩ false] :=
  ⟨rfl, by decide, rfl⟩

/-- C10 (amended): for a 2xx exchange whose body decode succeeds when
attempted (either the status is 204, or `response.json()` yields a body),
a request with no success callback triggers no callback of any kind — the
success channel has no client-wide default fallback. -/
theorem no_default_success_callback (env : Env) (req0 req1 : Request)
    (resp : Response)
    (hs : env.sign req0 = Res.ok req1) (hd : env.send req1 = Res.ok resp)
    (h2 : resp.status_code / 100 = 2)
    (hdec : resp.status_code = 204 ∨ ∃ j, resp.jsonResult = Res.ok j)
    (hc : req1.callback = none) :
    (process_request env req0).events = [] ∧
      (process_request env req0).escaped = none := by
  have hj : ∃ jb, jsonStep resp = Res.ok jb := by
    rcases hdec with h204 | ⟨j, hjr⟩
    · exact ⟨none, jsonStep_of_204 resp h204⟩
    · by_cases hn : resp.status_code = 204
      · exact ⟨none, jsonStep_of_204 resp hn⟩
      · exact ⟨some j, jsonStep_of_ok resp j hn hjr⟩
  rcases hj with ⟨jb, hjs⟩
  have ht := tryBody_of_2xx_no_callback env req0 req1 resp jb hs hd h2 hjs hc
  have hexc : (tryBody env req0).exc = none := by rw [ht]
  rw [process_request_of_exc_none env req0 hexc, ht]
  exact ⟨rfl, rfl⟩

/-- Witness for `no_default_success_callback`: a 204 exchange (whose
decoder would raise if consulted) on a request with no callback invokes
nothing at all. -/
theorem no_default_success_callback_witness :
    plainReq.callback = none ∧
      resp204.status_code / 100 = 2 ∧
      (process_request (okEnv (Res.ok resp204)) plainReq).events = [] := by
  refine ⟨rfl, by decide, ?_⟩
  exact (no_default_success_callback (okEnv (Res.ok resp204)) plainReq
    plainReq resp204 rfl rfl (by decide) (Or.inl rfl) rfl).1

/-- C6 (counterexample): with worker setup succeeding, a request whose own
`on_error` hook raises makes the exception escape the per-request scope of
`process_request`; the worker-level escalation (client-wide `on_error` with
a null request, worker terminates) then fires for a per-request failure,
not for a failure of the worker's own setup. -/
theorem worker_escalation_from_request_scope :
    (runWorker envOnErrorRaises (Res.ok ()) [onErrReq]).fatal = some ⟨9⟩ ∧
      (process_request envOnErrorRaises onErrReq).escaped = some ⟨9⟩ :=
  ⟨rfl, rfl⟩

/-- C6 (amended): an exception escapes a worker's per-request processing
scope only when the resolved `on_error` handler itself raised; the
worker-level escalation fires exactly when the worker's setup failed or a
dispatched request's resolved `on_error` handler raised. -/
theorem worker_escalation_characterization :
    (∀ (env : Env) (setup : Res Unit) (reqs : List Request),
        ((runWorker env setup reqs).fatal ≠ none ↔
          (∃ e, setup = Res.exn e) ∨
            ∃ r ∈ (runWorker env setup reqs).processed, r.escaped ≠ none)) ∧
      ∀ (env : Env) (req : Request) (e2 : Exc),
        (process_request env req).escaped = some e2 →
          ∃ e, (tryBody env req).exc = some e ∧
            resolveOnError env e (tryBody env req).cur = Res.exn e2 := by
  constructor
  · intro env setup reqs
    cases setup with
    | exn e => simp [runWorker]
    | ok u =>
      cases u
      have hq := runLoop_fatal_iff env reqs
      simpa [runWorker] using hq
  · intro env req e2 h
    exact process_request_escaped_some env req e2 h

/-- Witness for `worker_escalation_characterization`: the escape observed
in `worker_escalation_from_request_scope` originates from the resolved
`on_error` handler raising. -/
theorem worker_escalation_characterization_witness :
    (process_request envOnErrorRaises onErrReq).escaped = some ⟨9⟩ ∧
      ∃ e, (tryBody envOnErrorRaises onErrReq).exc = some e ∧
        resolveOnError envOnErrorRaises e
          (tryBody envOnErrorRaises onErrReq).cur = Res.exn ⟨9⟩ :=
  ⟨rfl, worker_escalation_characterization.2 envOnErrorRaises onErrReq ⟨9⟩ rfl⟩

/-- C7: `task_done` is acked exactly once per dequeued request — including
the request on which the dispatcher let an exception escape — and when the
worker survives the whole queue, the ack count equals the number of
enqueued requests, driving the queue's unfinished-task counter to zero so
`queue.join()` unblocks. -/
theorem ack_exactly_once_per_dequeue (env : Env) (setup : Res Unit)
    (reqs : List Request) :
    (runWorker env setup reqs).acks =
        (runWorker env setup reqs).processed.length ∧
      (setup = Res.ok () → (runWorker env setup reqs).fatal = none →
        (runWorker env setup reqs).acks = reqs.length ∧
          unfinishedTasks reqs.length (runWorker env setup reqs).acks = 0) := by
  constructor
  · cases setup with
    | exn e => rfl
    | ok u =>
      cases u
      exact runLoop_acks_eq_length env reqs
  · rintro rfl hf
    have h1 : (runLoop env reqs).fatal = none := hf
    have h2 := runLoop_acks_eq_length env reqs
    have h3 := runLoop_fatal_none_length env reqs h1
    constructor
    · show (runLoop env reqs).acks = reqs.length
      rw [h2, h3]
    · show unfinishedTasks reqs.length (runLoop env reqs).acks = 0
      unfold unfinishedTasks
      rw [h2, h3]
      omega

/-- Witness for `ack_exactly_once_per_dequeue`: a worker that processes two
benign requests acks twice and leaves the unfinished-task counter at zero.
-/
theorem ack_exactly_once_per_dequeue_witness :
    (runWorker (okEnv (Res.ok resp200)) (Res.ok ()) [plainReq, cbReq]).fatal
        = none ∧
      (runWorker (okEnv (Res.ok resp200)) (Res.ok ()) [plainReq, cbReq]).acks
        = 2 ∧
      unfinishedTasks 2
        (runWorker (okEnv (Res.ok resp200)) (Res.ok ()) [plainReq, cbReq]).acks
        = 0 := by
  refine ⟨rfl, ?_⟩
  have h := (ack_exactly_once_per_dequeue (okEnv (Res.ok resp200))
    (Res.ok ()) [plainReq, cbReq]).2 rfl rfl
  exact ⟨h.1, h.2⟩
